import Mathlib

/-!
Verification of the conversation-orchestration core of lemon-tree-core.

The definitions below are a shallow embedding of
`internal/service/chat_agent_conversation_service.go` (the context-derived
variant of the conversation service): conversation resolution and creation,
the cursor query behind `GetChatMessageList`, the streamed-chunk
tool-call accumulator and delta loop of `aiProcessStreamable`, the
blocking loop of `aiProcess`, the predefined-answer replay path, the
`createAIClient` vendor dispatch, and the ownership checks of
`DeleteConversation` / `RenameConversationTitle`.

External collaborators are modelled as explicit inputs: the LLM vendor is a
script (one scripted stream, or one scripted blocking response, per
recursive round), the tool backends are a function
`ToolCall → Except String String` standing for `callTool`, and the
database is a plain list passed in and returned.  Go map assignment on the
streamed tool-call accumulator is modelled as an insertion-ordered
association list (`assocPut`).
-/

namespace LemonTree

/-- One tool call (also one streamed tool-call fragment, which in the Go
source uses the same struct with possibly-empty fields). -/
structure ToolCall where
  id : String
  ctype : String
  name : String
  arguments : String
  deriving DecidableEq

/-- One message in the LLM-client request shape (`al_client.ChatMessage`). -/
structure ChatMessage where
  role : String
  content : String
  toolCalls : List ToolCall
  toolCallID : String
  deriving DecidableEq

/-- One frame of the caller-facing event stream
(`dto.ChatMessageResponseEventDto`, restricted to the fields the claims
are about). -/
structure Event where
  requestID : String
  messageType : String
  content : String
  deriving DecidableEq

/-- One row of the message store (`models.ChatAgentMessage`, restricted to
the fields the claims are about). -/
structure Row where
  requestID : String
  mtype : String
  role : String
  content : String
  functionCallID : String
  functionCallName : String
  functionCallArguments : String
  functionCallOutput : String
  deriving DecidableEq

/-- The `message`/`user` row persisted for the caller's input. -/
def userRow (rid content : String) : Row :=
  ⟨rid, "message", "user", content, "", "", "", ""⟩

/-- The final `message`/`assistant` row persisted for the answer. -/
def assistantRow (rid content : String) : Row :=
  ⟨rid, "message", "assistant", content, "", "", "", ""⟩

/-- The `function_call` row persisted for one tool invocation. -/
def functionCallRow (rid : String) (tc : ToolCall) : Row :=
  ⟨rid, "function_call", "", "", tc.id, tc.name, tc.arguments, ""⟩

/-- The `function_call_output` row persisted for one tool result. -/
def functionCallOutputRow (rid : String) (tc : ToolCall) (result : String) : Row :=
  ⟨rid, "function_call_output", "", "", tc.id, tc.name, "", result⟩

/-- A stored conversation (`models.ChatAgentConversation`). -/
structure Conversation where
  id : String
  applicationID : String
  chatAgentID : String
  serviceUserID : String
  title : String
  deriving DecidableEq

/-- Modelled from the library: Go's `uuid.Parse` restricted to the
canonical 36-character `8-4-4-4-12` form; the other input shapes it
accepts are irrelevant to the theorems below (which only need that the
canonical form parses and that short non-UUID strings do not). -/
def uuidParseOk (s : String) : Bool :=
  let cs := s.toList
  cs.length == 36 &&
    cs.enum.all fun p =>
      if p.1 == 8 || p.1 == 13 || p.1 == 18 || p.1 == 23 then p.2 == '-'
      else p.2.isDigit || ('a' ≤ p.2 && p.2 ≤ 'f') || ('A' ≤ p.2 && p.2 ≤ 'F')

/-- `CreateConversation`'s message filter: a leading `/no_think` directive
(9 bytes) is sliced off (`userMessage[9:]`) before the text is used as the
conversation title.  `strings.HasPrefix` and the byte slice are stated on
the character list; the prefix is ASCII, so byte and character slicing
coincide. -/
def filterUserMessage (userMessage : String) : String :=
  if userMessage.toList.take 9 = "/no_think".toList then
    String.mk (userMessage.toList.drop 9)
  else userMessage

/-- `CreateConversation`: builds the conversation record; the title is the
filtered first user message.  The database-generated id is passed in as
`newID`. -/
def createConversation (newID appID agentID serviceUserID userMessage : String) :
    Conversation :=
  ⟨newID, appID, agentID, serviceUserID, filterUserMessage userMessage⟩

/-- Outcome of the conversation-resolution step of `UserSendMessage`. -/
inductive ResolveOutcome where
  | newConv (c : Conversation)
  | existing (c : Conversation)
  | failed (msg : String)
  deriving DecidableEq

/-- The conversation-resolution step of `UserSendMessage`: a `nil` or empty
conversation id creates a new conversation; a non-empty id is parsed with
`uuid.Parse` (parse failure returns the error `无效的会话ID`); a parsed id
that the repository does not resolve falls back to creating a new
conversation; otherwise the existing conversation is used. -/
def resolveConversation (convStore : List Conversation)
    (newID appID agentID serviceUserID userMessage : String)
    (reqConversationID : Option String) : ResolveOutcome :=
  match reqConversationID with
  | none => .newConv (createConversation newID appID agentID serviceUserID userMessage)
  | some cid =>
    if cid = "" then
      .newConv (createConversation newID appID agentID serviceUserID userMessage)
    else if uuidParseOk cid = false then
      .failed "无效的会话ID"
    else
      match convStore.find? (fun c => c.id = cid) with
      | none => .newConv (createConversation newID appID agentID serviceUserID userMessage)
      | some conv => .existing conv

/-- The normalized LLM client selected by `createAIClient` (only the
OpenAI-compatible chat-completions backend is implemented). -/
inductive AIClient where
  | openAIChatCompletions (apiKey : String)
  deriving DecidableEq

/-- `createAIClient`: vendor dispatch on the provider's `Type` tag.
`openai_chat_completions_api` yields the OpenAI client; the recognized but
unimplemented tags `ollama` and `volcano_engine` return not-implemented
errors; every other tag falls into the `default` branch, which also
returns the OpenAI client. -/
def createAIClient (ptype apiKey : String) : Except String AIClient :=
  if ptype = "openai_chat_completions_api" then
    .ok (.openAIChatCompletions apiKey)
  else if ptype = "ollama" then
    .error "Ollama客户端尚未实现"
  else if ptype = "volcano_engine" then
    .error "火山引擎客户端尚未实现"
  else
    .ok (.openAIChatCompletions apiKey)

/-- The incremental delta carried by one streamed choice. -/
structure DeltaMsg where
  content : String
  toolCalls : List ToolCall
  deriving DecidableEq

/-- One choice of a streamed chunk. -/
structure StreamChoice where
  delta : DeltaMsg
  finishReason : String
  deriving DecidableEq

/-- One chunk received from `stream.Recv()`. -/
structure StreamChunk where
  choices : List StreamChoice
  deriving DecidableEq

/-- The mutable accumulation state of `aiProcessStreamable`'s chunk loop:
the `finalToolCalls` map (modelled as an insertion-ordered association
list), the in-construction `currentToolCall` and its id. -/
structure ToolAccState where
  finalToolCalls : List (String × ToolCall)
  currentToolCall : ToolCall
  currentToolCallID : String
  deriving DecidableEq

/-- Go map assignment `m[k] = v`: overwrite the existing entry for `k`, or
append a new one. -/
def assocPut (m : List (String × ToolCall)) (k : String) (v : ToolCall) :
    List (String × ToolCall) :=
  if m.any (fun p => p.1 = k) then
    m.map (fun p => if p.1 = k then (k, v) else p)
  else m ++ [(k, v)]

/-- One streamed tool-call fragment applied to the accumulator: a fragment
with a non-empty id starts (and registers) a new current tool call; a
fragment with an empty id extends the current one, overwriting the name if
non-empty and concatenating the argument string. -/
def applyToolCallFragment (st : ToolAccState) (tc : ToolCall) : ToolAccState :=
  if tc.id ≠ "" then
    let cur : ToolCall := ⟨tc.id, tc.ctype, tc.name, tc.arguments⟩
    ⟨assocPut st.finalToolCalls tc.id cur, cur, tc.id⟩
  else if st.currentToolCallID ≠ "" ∧ st.currentToolCall.id = st.currentToolCallID then
    let cur : ToolCall :=
      { st.currentToolCall with
        name := if tc.name ≠ "" then tc.name else st.currentToolCall.name
        arguments :=
          if tc.arguments ≠ "" then st.currentToolCall.arguments ++ tc.arguments
          else st.currentToolCall.arguments }
    ⟨assocPut st.finalToolCalls st.currentToolCallID cur, cur, st.currentToolCallID⟩
  else st

/-- The full state threaded through `aiProcessStreamable`'s chunk loop. -/
structure StreamLoopState where
  acc : ToolAccState
  answerFullContent : String
  events : List Event
  rows : List Row
  stopped : Bool
  deriving DecidableEq

/-- The chunk loop's initial state. -/
def initLoopState : StreamLoopState :=
  ⟨⟨[], ⟨"", "", "", ""⟩, ""⟩, "", [], [], false⟩

/-- One iteration of `aiProcessStreamable`'s chunk loop: chunks after the
`stop` break are ignored; a chunk with no choices is skipped; otherwise the
first choice's tool-call fragments are accumulated, a non-empty content
delta is appended to the running answer and emitted as an `answer_delta`
event, and a `stop` finish reason persists the accumulated answer as the
final assistant row, emits the terminal `answer` event and breaks. -/
def streamStep (rid : String) (st : StreamLoopState) (chunk : StreamChunk) :
    StreamLoopState :=
  if st.stopped then st else
  match chunk.choices with
  | [] => st
  | choice :: _ =>
    let acc0 := choice.delta.toolCalls.foldl applyToolCallFragment st.acc
    let ans0 :=
      if choice.delta.content = "" then st.answerFullContent
      else st.answerFullContent ++ choice.delta.content
    let evs0 :=
      if choice.delta.content = "" then st.events
      else st.events ++ [⟨rid, "answer_delta", choice.delta.content⟩]
    if choice.finishReason = "stop" then
      ⟨acc0, ans0, evs0 ++ [⟨rid, "answer", ans0⟩],
        st.rows ++ [assistantRow rid ans0], true⟩
    else
      ⟨acc0, ans0, evs0, st.rows, st.stopped⟩

/-- The whole chunk loop of one streamed LLM invocation. -/
def processStream (rid : String) (chunks : List StreamChunk) : StreamLoopState :=
  chunks.foldl (streamStep rid) initLoopState

/-- The reassembled tool calls of one streamed LLM invocation, in the
accumulator's order. -/
def roundCalls (rid : String) (chunks : List StreamChunk) : List ToolCall :=
  ((processStream rid chunks).acc.finalToolCalls).map Prod.snd

/-- The result string the streamable tool loop records for one tool call:
`callTool`'s result on success, the fixed error string `调用工具失败` when
`callTool` returns an error. -/
def toolResultString (callTool : ToolCall → Except String String) (tc : ToolCall) :
    String :=
  match callTool tc with
  | .ok r => r
  | .error _ => "调用工具失败"

/-- State threaded through the tool-dispatch loop. -/
structure ToolLoopState where
  events : List Event
  rows : List Row
  msgs : List ChatMessage
  deriving DecidableEq

/-- One iteration of `aiProcessStreamable`'s tool loop: emit `tool_call`,
persist the `function_call` row, emit `tool_call_processing`, invoke the
tool, persist the `function_call_output` row, emit `tool_call_end`, and
append the assistant tool-call message and the tool-role result message to
the in-memory message list. -/
def toolLoopStep (callTool : ToolCall → Except String String) (rid : String)
    (st : ToolLoopState) (tc : ToolCall) : ToolLoopState :=
  let r := toolResultString callTool tc
  ⟨st.events ++
      [⟨rid, "tool_call", tc.name⟩, ⟨rid, "tool_call_processing", tc.name⟩,
        ⟨rid, "tool_call_end", tc.name⟩],
    st.rows ++ [functionCallRow rid tc, functionCallOutputRow rid tc r],
    st.msgs ++ [⟨"assistant", "", [tc], ""⟩, ⟨"tool", r, [], tc.id⟩]⟩

/-- Combined output of one (possibly recursive) orchestration run: the
emitted event stream, the rows appended to the message store, and the
number of LLM-client invocations attempted. -/
structure ProcOut where
  events : List Event
  rows : List Row
  llmCalls : Nat
  deriving DecidableEq

/-- `aiProcessStreamable`: the LLM vendor is modelled as a script holding
one chunk list per recursive round; an exhausted script models a failing
`SendMessageStream` call, which emits an `error` event and stops.  After
the chunk loop, every accumulated tool call is dispatched by the tool
loop, and if there was at least one the function recurses on itself with
the extended message list. -/
def aiProcessStreamable (callTool : ToolCall → Except String String) (rid : String) :
    List (List StreamChunk) → List ChatMessage → ProcOut
  | [], _ => ⟨[⟨rid, "error", "AI Process error"⟩], [], 1⟩
  | chunks :: rest, messages =>
    let s := processStream rid chunks
    let calls := (s.acc.finalToolCalls).map Prod.snd
    let t := calls.foldl (toolLoopStep callTool rid) ⟨[], [], messages⟩
    if calls = [] then
      ⟨s.events ++ t.events, s.rows ++ t.rows, 1⟩
    else
      let cont := aiProcessStreamable callTool rid rest t.msgs
      ⟨s.events ++ t.events ++ cont.events, s.rows ++ t.rows ++ cont.rows,
        1 + cont.llmCalls⟩

/-- One blocking LLM response (the first choice's message). -/
structure AssistantResponse where
  content : String
  toolCalls : List ToolCall
  deriving DecidableEq

/-- The result string the blocking tool loop records for one tool call:
on error the formatted string `工具调用失败: <err>`. -/
def blockToolResultString (callTool : ToolCall → Except String String)
    (tc : ToolCall) : String :=
  match callTool tc with
  | .ok r => r
  | .error e => "工具调用失败: " ++ e

/-- One iteration of `aiProcess`'s (blocking) tool loop: emit `tool_call`
and `tool_result` events and extend the in-memory message list.  Unlike the
streamable loop, it persists no `function_call` / `function_call_output`
rows. -/
def blockToolLoopStep (callTool : ToolCall → Except String String) (rid : String)
    (st : ToolLoopState) (tc : ToolCall) : ToolLoopState :=
  let r := blockToolResultString callTool tc
  ⟨st.events ++
      [⟨rid, "tool_call", "调用工具: " ++ tc.name⟩, ⟨rid, "tool_result", r⟩],
    st.rows,
    st.msgs ++ [⟨"assistant", "", [tc], ""⟩, ⟨"tool", r, [], tc.id⟩]⟩

/-- `aiProcess`: the blocking variant.  The vendor is a script holding one
blocking response per recursive round; an exhausted script models a
failing `SendMessage` call.  A response with tool calls dispatches them
and recurses; a response without tool calls persists its content as the
final assistant row and emits the terminal `answer` event. -/
def aiProcess (callTool : ToolCall → Except String String) (rid : String) :
    List AssistantResponse → List ChatMessage → ProcOut
  | [], _ => ⟨[⟨rid, "error", "AI处理出错"⟩], [], 1⟩
  | resp :: rest, messages =>
    let t := resp.toolCalls.foldl (blockToolLoopStep callTool rid) ⟨[], [], messages⟩
    if resp.toolCalls = [] then
      ⟨[⟨rid, "answer", resp.content⟩], [assistantRow rid resp.content], 1⟩
    else
      let cont := aiProcess callTool rid rest t.msgs
      ⟨t.events ++ cont.events, t.rows ++ cont.rows, 1 + cont.llmCalls⟩

/-- A stored message-table row as the cursor queries see it
(`models.ChatAgentMessage` restricted to the fields the claims are about;
`createdAt` is an abstract creation timestamp and the store list is the
insertion-ordered append log, so the SQL `ORDER BY created_at DESC` is its
reverse). -/
structure StoredMsg where
  conversationID : String
  chatAgentID : String
  requestID : String
  mtype : String
  role : String
  content : String
  createdAt : Nat
  deleted : Bool
  deriving DecidableEq

/-- `GetChatMessageList` with an empty cursor: rows of the agent's
conversation that are not soft-deleted, ordered by creation time
descending, limited to `size`. -/
def getChatMessageListQuery (store : List StoredMsg) (agentID convID : String)
    (size : Nat) : List StoredMsg :=
  ((store.filter
      (fun m => m.chatAgentID = agentID ∧ m.conversationID = convID ∧
        m.deleted = false)).reverse).take size

/-- The history filter of `UserSendMessage`: only rows of type `message`
with a non-empty role are replayed as history. -/
def isPlainRoleMessage (m : StoredMsg) : Prop :=
  m.mtype = "message" ∧ m.role ≠ ""

instance (m : StoredMsg) : Decidable (isPlainRoleMessage m) := by
  unfold isPlainRoleMessage; infer_instance

/-- The history segment `UserSendMessage` builds for an existing
conversation: the 100-row cursor page, filtered to plain role messages and
converted to the LLM-client message shape. -/
def historyMessagesOf (store : List StoredMsg) (agentID convID : String) :
    List ChatMessage :=
  ((getChatMessageListQuery store agentID convID 100).filter
      (fun m => isPlainRoleMessage m)).map
    (fun m => ⟨m.role, m.content, [], ""⟩)

/-- All plain role messages of the conversation, newest first (the full
unpaginated descending sequence the history is a window of). -/
def conversationMessageRowsDesc (store : List StoredMsg) (agentID convID : String) :
    List StoredMsg :=
  ((store.filter
      (fun m => m.chatAgentID = agentID ∧ m.conversationID = convID ∧
        m.deleted = false)).reverse).filter (fun m => isPlainRoleMessage m)

/-- The full message list `UserSendMessage` hands to the LLM client for an
existing conversation (no attachments): system prompt, history window,
current user message. -/
def buildLlmMessages (store : List StoredMsg) (agentID convID : String)
    (systemPrompt userMessage : String) : List ChatMessage :=
  ⟨"system", systemPrompt, [], ""⟩ ::
    historyMessagesOf store agentID convID ++ [⟨"user", userMessage, [], ""⟩]

/-- `UserSendMessage` after conversation resolution and history building
(no attachments): persist the user's message row, then hand the built
message list to `aiProcessStreamable` or `aiProcess` according to the
caller's `streamable` flag.  The two vendor scripts model the external
LLM for the two paths; only the one selected is consumed. -/
def userSendMessage (callTool : ToolCall → Except String String) (rid : String)
    (streamScript : List (List StreamChunk)) (blockScript : List AssistantResponse)
    (streamable : Bool) (systemPrompt : String) (history : List ChatMessage)
    (userMessage : String) : ProcOut :=
  let messages : List ChatMessage :=
    ⟨"system", systemPrompt, [], ""⟩ :: history ++ [⟨"user", userMessage, [], ""⟩]
  let out :=
    if streamable then aiProcessStreamable callTool rid streamScript messages
    else aiProcess callTool rid blockScript messages
  ⟨out.events, userRow rid userMessage :: out.rows, out.llmCalls⟩

/-- `UserSendMessagePredefinedAnswer` after conversation resolution:
persist the user row and the literal-answer assistant row, then replay the
answer — character by character as `answer_delta` events followed by one
terminal `answer` event when streaming, or as the single `answer` event
otherwise.  No LLM client is ever created or invoked on this path. -/
def predefinedAnswerProcess (rid : String) (userMessage answer : String)
    (streamable : Bool) : ProcOut :=
  let rows := [userRow rid userMessage, assistantRow rid answer]
  let events :=
    if streamable then
      (answer.toList.map fun c => (⟨rid, "answer_delta", String.singleton c⟩ : Event)) ++
        [⟨rid, "answer", answer⟩]
    else [⟨rid, "answer", answer⟩]
  ⟨events, rows, 0⟩

/-- The conversation + message tables as `DeleteConversation` and
`RenameConversationTitle` see them. -/
structure ConvDB where
  conversations : List Conversation
  messages : List StoredMsg
  deriving DecidableEq

/-- Response shape of `DeleteConversation`. -/
structure DeleteConversationResponse where
  success : Bool
  error : Option String
  deletedMessagesCount : Option Nat
  deriving DecidableEq

/-- Response shape of `RenameConversationTitle`. -/
structure RenameConversationResponse where
  success : Bool
  error : Option String
  newTitle : Option String
  deriving DecidableEq

/-- `DeleteConversation`: parse the id, load the conversation, check that
its stored `(chat agent id, service-user id)` owner matches the caller,
and only then delete the conversation's messages and the conversation
itself.  Every failure branch returns `success = false` and leaves the
database untouched. -/
def deleteConversation (db : ConvDB) (agentID serviceUserID conversationID : String) :
    DeleteConversationResponse × ConvDB :=
  if uuidParseOk conversationID = false then
    (⟨false, some "无效的会话ID", none⟩, db)
  else
    match db.conversations.find? (fun c => c.id = conversationID) with
    | none => (⟨false, some "会话不存在", none⟩, db)
    | some conv =>
      if conv.chatAgentID ≠ agentID ∨ conv.serviceUserID ≠ serviceUserID then
        (⟨false, some "无权删除此会话", none⟩, db)
      else
        let doomed := db.messages.filter
          (fun m => m.chatAgentID = agentID ∧ m.conversationID = conversationID)
        (⟨true, none, some doomed.length⟩,
          ⟨db.conversations.filter (fun c => ¬ c.id = conversationID),
            db.messages.filter
              (fun m => ¬ (m.chatAgentID = agentID ∧ m.conversationID = conversationID))⟩)

/-- `RenameConversationTitle`: same resolution and ownership check as
`DeleteConversation`; on success only the matching conversation's title is
replaced, the message table is never touched. -/
def renameConversationTitle (db : ConvDB)
    (agentID serviceUserID conversationID newTitle : String) :
    RenameConversationResponse × ConvDB :=
  if uuidParseOk conversationID = false then
    (⟨false, some "无效的会话ID", none⟩, db)
  else
    match db.conversations.find? (fun c => c.id = conversationID) with
    | none => (⟨false, some "会话不存在", none⟩, db)
    | some conv =>
      if conv.chatAgentID ≠ agentID ∨ conv.serviceUserID ≠ serviceUserID then
        (⟨false, some "无权重命名此会话", none⟩, db)
      else
        (⟨true, none, some newTitle⟩,
          ⟨db.conversations.map
              (fun c => if c.id = conversationID then { c with title := newTitle } else c),
            db.messages⟩)

/-- Contents of the `answer_delta` events of a stream, in emission order. -/
def eventsDeltaContents (evs : List Event) : List String :=
  (evs.filter (fun e => e.messageType = "answer_delta")).map (fun e => e.content)

/-- Contents of the `answer` events of a stream, in emission order. -/
def eventsAnswerContents (evs : List Event) : List String :=
  (evs.filter (fun e => e.messageType = "answer")).map (fun e => e.content)

/-- Left-fold concatenation of a list of strings. -/
def concatAll (l : List String) : String :=
  l.foldl (fun a b => a ++ b) ""

/-- Scenario: a streamed round that emits the content delta `A`, one
complete tool call and a `tool_calls` finish. -/
def mixedContentToolRound : List StreamChunk :=
  [⟨[⟨⟨"A", [⟨"tc1", "function", "f", "\x7b\x7d"⟩]⟩, ""⟩]⟩,
    ⟨[⟨⟨"", []⟩, "tool_calls"⟩]⟩]

/-- Scenario: a streamed round that emits the content delta `B` and then a
`stop` finish. -/
def stopRoundB : List StreamChunk :=
  [⟨[⟨⟨"B", []⟩, ""⟩]⟩, ⟨[⟨⟨"", []⟩, "stop"⟩]⟩]

/-- Scenario: the full streamed run whose first round mixes a content
delta with a tool call before recursing. -/
def mixedRunOut : ProcOut :=
  aiProcessStreamable (fun _ => .ok "\"res\"") "r" [mixedContentToolRound, stopRoundB] []

/-- Scenario: a blocking run whose first response requests one tool call
and whose second response is the final answer `done`. -/
def blockingToolRunOut : ProcOut :=
  userSendMessage (fun _ => .ok "\"ok\"") "r" []
    [⟨"", [⟨"a", "function", "f", "\x7b\x7d"⟩]⟩, ⟨"done", []⟩]
    false "s" [] "hi"

/-- The invariant the chunk loop maintains: before the `stop` break no
assistant row is persisted and no `answer` event has been emitted; after
it the single assistant row and single `answer` event carry the
accumulated answer; the emitted `answer_delta` contents always concatenate
to the accumulated answer; and every emitted event is an `answer_delta` or
`answer` event carrying the request id. -/
def StreamInv (rid : String) (st : StreamLoopState) : Prop :=
  (st.stopped = false → st.rows = [] ∧ eventsAnswerContents st.events = []) ∧
  (st.stopped = true → st.rows = [assistantRow rid st.answerFullContent] ∧
    eventsAnswerContents st.events = [st.answerFullContent]) ∧
  concatAll (eventsDeltaContents st.events) = st.answerFullContent ∧
  (∀ e ∈ st.events,
    (e.messageType = "answer_delta" ∨ e.messageType = "answer") ∧ e.requestID = rid)

/-- The events the streamable tool loop emits for a list of tool calls. -/
def toolLoopEvents (rid : String) (calls : List ToolCall) : List Event :=
  calls.flatMap fun tc =>
    [⟨rid, "tool_call", tc.name⟩, ⟨rid, "tool_call_processing", tc.name⟩,
      ⟨rid, "tool_call_end", tc.name⟩]

/-- The row pairs the streamable tool loop persists for a list of tool
calls: one `function_call` row and one `function_call_output` row per
call. -/
def toolPairRows (callTool : ToolCall → Except String String) (rid : String)
    (calls : List ToolCall) : List Row :=
  calls.flatMap fun tc =>
    [functionCallRow rid tc, functionCallOutputRow rid tc (toolResultString callTool tc)]

/-- The messages the streamable tool loop appends for the next LLM call. -/
def toolLoopMsgs (callTool : ToolCall → Except String String)
    (calls : List ToolCall) : List ChatMessage :=
  calls.flatMap fun tc =>
    [⟨"assistant", "", [tc], ""⟩, ⟨"tool", toolResultString callTool tc, [], tc.id⟩]

/-- The `function_call` / `function_call_output` row pair persisted for
one tool call. -/
def pairFn (callTool : ToolCall → Except String String) (rid : String) :
    ToolCall → List Row := fun tc =>
  [functionCallRow rid tc, functionCallOutputRow rid tc (toolResultString callTool tc)]

/-- Scenario: a stream that emits the deltas `O` and `K` and stops. -/
def reassemblyWitnessChunks : List StreamChunk :=
  [⟨[⟨⟨"O", []⟩, ""⟩]⟩, ⟨[⟨⟨"K", []⟩, "stop"⟩]⟩]

/-- Scenario: a streamed round carrying one complete tool call and a
`tool_calls` finish. -/
def singleToolRound : List StreamChunk :=
  [⟨[⟨⟨"", [⟨"a", "function", "f", "\x7b\x7d"⟩]⟩, ""⟩]⟩,
    ⟨[⟨⟨"", []⟩, "tool_calls"⟩]⟩]

/-- Scenario: a streamed round that answers `done` and stops. -/
def stopRoundDone : List StreamChunk :=
  [⟨[⟨⟨"done", []⟩, ""⟩]⟩, ⟨[⟨⟨"", []⟩, "stop"⟩]⟩]

/-- Scenario: a tool backend that always succeeds. -/
def okCallTool : ToolCall → Except String String := fun _ => .ok "\"ok\""

/-- Scenario: a streamed round carrying two complete tool calls. -/
def failIsoChunks : List StreamChunk :=
  [⟨[⟨⟨"", [⟨"a", "function", "f", "\x7b\x7d"⟩]⟩, ""⟩]⟩,
    ⟨[⟨⟨"", [⟨"b", "function", "g", "\x7b\x7d"⟩]⟩, ""⟩]⟩,
    ⟨[⟨⟨"", []⟩, "tool_calls"⟩]⟩]

/-- Scenario: a tool backend that fails on tool-call id `a` and succeeds
otherwise. -/
def failIsoCallTool : ToolCall → Except String String :=
  fun tc => if tc.id = "a" then .error "boom" else .ok "\"ok\""

/-- Scenario: a tool backend that fails on tool-call id `b` — the second
call of `failIsoChunks` — and succeeds otherwise. -/
def failsSecondCallTool : ToolCall → Except String String :=
  fun tc => if tc.id = "b" then .error "boom" else .ok "\"ok\""

/-- Scenario: one stored conversation owned by `(agent1, u1)` with one
message. -/
def ownerDB : ConvDB :=
  ⟨[⟨"00000000-0000-0000-0000-000000000001", "app1", "agent1", "u1", "t"⟩],
    [⟨"00000000-0000-0000-0000-000000000001", "agent1", "req1", "message", "user",
      "hello", 0, false⟩]⟩

/-- Scenario: a two-message conversation log in creation order. -/
def twoMsgStore : List StoredMsg :=
  [⟨"c1", "g1", "q1", "message", "user", "hi", 0, false⟩,
    ⟨"c1", "g1", "q1", "message", "assistant", "yo", 1, false⟩]

end LemonTree

namespace LemonTree

/-- C4: feeding the accumulator a first chunk that introduces tool-call id
`tc1` with partial arguments `{"x":` and a second chunk whose fragment has
an empty id and arguments `1}` yields exactly one reassembled tool call,
keyed `tc1`, with arguments `{"x":1}` — no duplication and no loss. -/
theorem toolCallIdContinuity : ∀ rid : String,
    (processStream rid
        [⟨[⟨⟨"", [⟨"tc1", "function", "f", "\x7b\"x\":"⟩]⟩, ""⟩]⟩,
          ⟨[⟨⟨"", [⟨"", "", "", "1\x7d"⟩]⟩, ""⟩]⟩]).acc.finalToolCalls
      = [("tc1", ⟨"tc1", "function", "f", "\x7b\"x\":1\x7d"⟩)] := by
  intro rid; rfl

/-- C5 counterexample: a syntactically invalid conversation id is a hard
error — `UserSendMessage` returns `无效的会话ID` instead of creating a new
conversation, refuting the claim that an invalid id never errors. -/
theorem resolveConversationInvalidIdErrors :
    resolveConversation [] "n" "a" "g" "u" "hi" (some "not-a-uuid")
      = .failed "无效的会话ID" := by decide

/-- C5 amended: if the caller supplies no conversation id, an empty one,
or a syntactically valid id that does not resolve to an existing
conversation, `UserSendMessage` creates a new conversation and proceeds;
only a syntactically invalid id is rejected with an error. -/
theorem resolveConversationCreatesNew (convStore : List Conversation)
    (newID appID agentID uid msg : String) (reqID : Option String)
    (h : reqID = none ∨ reqID = some "" ∨
      (∃ cid, reqID = some cid ∧ uuidParseOk cid = true ∧
        convStore.find? (fun c => c.id = cid) = none)) :
    resolveConversation convStore newID appID agentID uid msg reqID
      = .newConv (createConversation newID appID agentID uid msg) := by
  rcases h with h | h | ⟨cid, hcid, hparse, hfind⟩
  · subst h; rfl
  · subst h; rfl
  · subst hcid
    by_cases hempty : cid = ""
    · simp [resolveConversation, hempty]
    · simp [resolveConversation, hempty, hparse, hfind]

/-- C5 witness: with no conversation id supplied, resolution creates a new
conversation. -/
theorem resolveConversationCreatesNewWitness :
    resolveConversation [] "n" "a" "g" "u" "hi" none
      = .newConv (createConversation "n" "a" "g" "u" "hi") :=
  resolveConversationCreatesNew [] "n" "a" "g" "u" "hi" none (Or.inl rfl)

/-- C6 counterexample: the first user message `/no_think hello` yields the
conversation title ` hello` — the 9-byte directive is sliced off but the
following space is kept — refuting the claimed title `hello`. -/
theorem titleKeepsLeadingSpace :
    (createConversation "i" "a" "g" "u" "/no_think hello").title ≠ "hello" ∧
      (createConversation "i" "a" "g" "u" "/no_think hello").title = " hello" := by
  constructor
  · decide
  · decide

/-- C6 amended: the conversation title equals the first user message with
a leading `/no_think` directive (exactly its 9 bytes) removed, keeping any
following whitespace: `/no_think hello` yields ` hello`, and `hello`
without the directive yields `hello` unchanged. -/
theorem titleDerivation : ∀ newID appID agentID uid : String,
    (createConversation newID appID agentID uid "/no_think hello").title = " hello" ∧
      (createConversation newID appID agentID uid "hello").title = "hello" := by
  intro newID appID agentID uid
  exact ⟨rfl, rfl⟩

/-- C7 counterexample: the provider type `some_unknown_vendor` is not an
implemented backend, yet `createAIClient` silently returns the OpenAI
chat-completions client instead of a not-implemented error. -/
theorem createAIClientUnknownTypeDefaultsToOpenAI :
    createAIClient "some_unknown_vendor" "k"
        = .ok (.openAIChatCompletions "k") ∧
      ("some_unknown_vendor" : String) ≠ "openai_chat_completions_api" := by
  exact ⟨rfl, by decide⟩

/-- C7 amended: only the two explicitly recognized but unimplemented
provider types `ollama` and `volcano_engine` fail with a not-implemented
error; every other type tag — implemented or unknown — yields the OpenAI
chat-completions client (the switch's default branch). -/
theorem createAIClientDispatch (ptype key : String) :
    ((ptype = "ollama" ∨ ptype = "volcano_engine") →
        ∃ e, createAIClient ptype key = .error e) ∧
      (ptype ≠ "ollama" → ptype ≠ "volcano_engine" →
        createAIClient ptype key = .ok (.openAIChatCompletions key)) := by
  constructor
  · rintro (h | h) <;> subst h
    · exact ⟨"Ollama客户端尚未实现", rfl⟩
    · exact ⟨"火山引擎客户端尚未实现", rfl⟩
  · intro h1 h2
    by_cases h3 : ptype = "openai_chat_completions_api"
    · simp [createAIClient, h3]
    · simp [createAIClient, h1, h2, h3]

/-- C7 witness: `ollama` fails with a not-implemented error while the
unknown tag `zzz` gets the OpenAI client. -/
theorem createAIClientDispatchWitness :
    (∃ e, createAIClient "ollama" "k" = .error e) ∧
      createAIClient "zzz" "k" = .ok (.openAIChatCompletions "k") :=
  ⟨(createAIClientDispatch "ollama" "k").1 (Or.inl rfl),
    (createAIClientDispatch "zzz" "k").2 (by decide) (by decide)⟩

/-- C8: the predefined-answer path with answer `OK` and streaming enabled
emits exactly the two character deltas `O`, `K` followed by the single
terminal `answer` event with content `OK`, persists the user row and the
literal assistant row, and performs zero LLM-client invocations. -/
theorem predefinedAnswerBypass : ∀ rid userMessage : String,
    predefinedAnswerProcess rid userMessage "OK" true =
      ⟨[⟨rid, "answer_delta", "O"⟩, ⟨rid, "answer_delta", "K"⟩,
          ⟨rid, "answer", "OK"⟩],
        [userRow rid userMessage, assistantRow rid "OK"], 0⟩ := by
  intro rid userMessage; rfl

lemma concatAll_append_one (l : List String) (x : String) :
    concatAll (l ++ [x]) = concatAll l ++ x := by
  simp [concatAll, List.foldl_append]

lemma answers_append (l1 l2 : List Event) :
    eventsAnswerContents (l1 ++ l2) = eventsAnswerContents l1 ++ eventsAnswerContents l2 := by
  simp [eventsAnswerContents]

lemma deltas_append (l1 l2 : List Event) :
    eventsDeltaContents (l1 ++ l2) = eventsDeltaContents l1 ++ eventsDeltaContents l2 := by
  simp [eventsDeltaContents]

lemma answers_cons_delta (rid c : String) (rest : List Event) :
    eventsAnswerContents (⟨rid, "answer_delta", c⟩ :: rest) = eventsAnswerContents rest := rfl

lemma answers_cons_answer (rid c : String) (rest : List Event) :
    eventsAnswerContents (⟨rid, "answer", c⟩ :: rest) = c :: eventsAnswerContents rest := rfl

lemma deltas_cons_delta (rid c : String) (rest : List Event) :
    eventsDeltaContents (⟨rid, "answer_delta", c⟩ :: rest) = c :: eventsDeltaContents rest := rfl

lemma deltas_cons_answer (rid c : String) (rest : List Event) :
    eventsDeltaContents (⟨rid, "answer", c⟩ :: rest) = eventsDeltaContents rest := rfl

lemma answers_nil : eventsAnswerContents [] = [] := rfl

lemma deltas_nil : eventsDeltaContents [] = [] := rfl

lemma streamStep_inv (rid : String) (st : StreamLoopState) (chunk : StreamChunk)
    (h : StreamInv rid st) : StreamInv rid (streamStep rid st chunk) := by
  obtain ⟨hrun, hstop, hcat, hall⟩ := h
  by_cases hs : st.stopped
  · have hstate : streamStep rid st chunk = st := by simp [streamStep, hs]
    rw [hstate]; exact ⟨hrun, hstop, hcat, hall⟩
  · rcases hc : chunk.choices with _ | ⟨choice, restc⟩
    · have hstate : streamStep rid st chunk = st := by simp [streamStep, hs, hc]
      rw [hstate]; exact ⟨hrun, hstop, hcat, hall⟩
    · have hs' : st.stopped = false := by simpa using hs
      obtain ⟨hrows, hans⟩ := hrun hs'
      by_cases hfin : choice.finishReason = "stop" <;>
        by_cases hcontent : choice.delta.content = ""
      · have hstate : streamStep rid st chunk =
            ⟨choice.delta.toolCalls.foldl applyToolCallFragment st.acc,
              st.answerFullContent,
              st.events ++ [⟨rid, "answer", st.answerFullContent⟩],
              st.rows ++ [assistantRow rid st.answerFullContent], true⟩ := by
          simp [streamStep, hs, hc, hfin, hcontent]
        rw [hstate]
        refine ⟨fun hfalse => by simp at hfalse, fun _ => ?_, ?_, ?_⟩
        · exact ⟨by simp [hrows], by
            simp [answers_append, hans, answers_cons_answer, answers_nil]⟩
        · simp [deltas_append, deltas_cons_answer, deltas_nil, hcat]
        · intro e he
          rcases List.mem_append.mp he with he | he
          · exact hall e he
          · simp at he; subst he; simp
      · have hstate : streamStep rid st chunk =
            ⟨choice.delta.toolCalls.foldl applyToolCallFragment st.acc,
              st.answerFullContent ++ choice.delta.content,
              (st.events ++ [⟨rid, "answer_delta", choice.delta.content⟩]) ++
                [⟨rid, "answer", st.answerFullContent ++ choice.delta.content⟩],
              st.rows ++ [assistantRow rid (st.answerFullContent ++ choice.delta.content)],
              true⟩ := by
          simp [streamStep, hs, hc, hfin, hcontent]
        rw [hstate]
        refine ⟨fun hfalse => by simp at hfalse, fun _ => ?_, ?_, ?_⟩
        · exact ⟨by simp [hrows], by
            simp [answers_append, hans, answers_cons_answer, answers_cons_delta,
              answers_nil]⟩
        · simp [deltas_append, deltas_cons_answer, deltas_cons_delta, deltas_nil,
            concatAll_append_one, hcat]
        · intro e he
          rcases List.mem_append.mp he with he | he
          · rcases List.mem_append.mp he with he | he
            · exact hall e he
            · simp at he; subst he; simp
          · simp at he; subst he; simp
      · have hstate : streamStep rid st chunk =
            ⟨choice.delta.toolCalls.foldl applyToolCallFragment st.acc,
              st.answerFullContent, st.events, st.rows, st.stopped⟩ := by
          simp [streamStep, hs, hc, hfin, hcontent]
        rw [hstate]
        exact ⟨fun _ => ⟨hrows, hans⟩, fun htrue => absurd htrue hs, hcat, hall⟩
      · have hstate : streamStep rid st chunk =
            ⟨choice.delta.toolCalls.foldl applyToolCallFragment st.acc,
              st.answerFullContent ++ choice.delta.content,
              st.events ++ [⟨rid, "answer_delta", choice.delta.content⟩],
              st.rows, st.stopped⟩ := by
          simp [streamStep, hs, hc, hfin, hcontent]
        rw [hstate]
        refine ⟨fun _ => ⟨hrows, ?_⟩, fun htrue => absurd htrue hs, ?_, ?_⟩
        · simp [answers_append, hans, answers_cons_delta, answers_nil]
        · simp [deltas_append, deltas_cons_delta, deltas_nil, concatAll_append_one, hcat]
        · intro e he
          rcases List.mem_append.mp he with he | he
          · exact hall e he
          · simp at he; subst he; simp

lemma foldl_streamStep_inv (rid : String) (chunks : List StreamChunk) :
    ∀ st : StreamLoopState, StreamInv rid st →
      StreamInv rid (chunks.foldl (streamStep rid) st) := by
  induction chunks with
  | nil => intro st h; exact h
  | cons c rest ih =>
    intro st h
    exact ih _ (streamStep_inv rid st c h)

lemma processStream_inv (rid : String) (chunks : List StreamChunk) :
    StreamInv rid (processStream rid chunks) := by
  refine foldl_streamStep_inv rid chunks initLoopState ?_
  refine ⟨fun _ => ⟨rfl, rfl⟩, fun h => by simp [initLoopState] at h, rfl, ?_⟩
  intro e he; simp [initLoopState] at he

lemma foldl_toolLoopStep (callTool : ToolCall → Except String String) (rid : String) :
    ∀ (calls : List ToolCall) (st : ToolLoopState),
      calls.foldl (toolLoopStep callTool rid) st =
        ⟨st.events ++ toolLoopEvents rid calls,
          st.rows ++ toolPairRows callTool rid calls,
          st.msgs ++ toolLoopMsgs callTool calls⟩ := by
  intro calls
  induction calls with
  | nil => intro st; simp [toolLoopEvents, toolPairRows, toolLoopMsgs]
  | cons tc rest ih =>
    intro st
    simp only [List.foldl_cons, ih, toolLoopStep, toolLoopEvents, toolPairRows,
      toolLoopMsgs, List.flatMap_cons, List.append_assoc]

lemma toolLoopEvents_mem (rid : String) (calls : List ToolCall) :
    ∀ e ∈ toolLoopEvents rid calls,
      (e.messageType = "tool_call" ∨ e.messageType = "tool_call_processing" ∨
        e.messageType = "tool_call_end") ∧ e.requestID = rid := by
  intro e he
  simp only [toolLoopEvents, List.mem_flatMap] at he
  obtain ⟨tc, _, he⟩ := he
  simp at he
  rcases he with he | he | he <;> subst he <;> simp

lemma toolPairRows_requestID (callTool : ToolCall → Except String String)
    (rid : String) (calls : List ToolCall) :
    ∀ r ∈ toolPairRows callTool rid calls, r.requestID = rid := by
  intro r hr
  simp only [toolPairRows, List.mem_flatMap] at hr
  obtain ⟨tc, _, hr⟩ := hr
  simp at hr
  rcases hr with hr | hr <;> subst hr <;> rfl

lemma aiStreamShape (callTool : ToolCall → Except String String) (rid : String)
    (last : List StreamChunk)
    (hl1 : (processStream rid last).stopped = true)
    (hl2 : roundCalls rid last = []) :
    ∀ (inner : List (List StreamChunk)),
      (∀ r ∈ inner, (processStream rid r).stopped = false ∧ roundCalls rid r ≠ []) →
      ∀ msgs : List ChatMessage,
        (aiProcessStreamable callTool rid (inner ++ [last]) msgs).rows =
            (inner.flatMap fun r => toolPairRows callTool rid (roundCalls rid r)) ++
              [assistantRow rid (processStream rid last).answerFullContent] ∧
          (∀ e ∈ (aiProcessStreamable callTool rid (inner ++ [last]) msgs).events,
            e.messageType ≠ "error" ∧ e.requestID = rid) := by
  intro inner
  induction inner with
  | nil =>
    intro _ msgs
    obtain ⟨_, hstop, _, hall⟩ := processStream_inv rid last
    obtain ⟨hrows, _⟩ := hstop hl1
    have hcalls : ((processStream rid last).acc.finalToolCalls).map Prod.snd = [] := hl2
    simp only [List.nil_append, aiProcessStreamable, hcalls, foldl_toolLoopStep,
      if_pos rfl]
    constructor
    · simp [hrows, toolPairRows]
    · intro e he
      simp only [List.append_nil, toolLoopEvents] at he
      have he' : e ∈ (processStream rid last).events := by simpa using he
      obtain ⟨hmt, hrid⟩ := hall e he'
      refine ⟨?_, hrid⟩
      rcases hmt with hmt | hmt <;> rw [hmt] <;> decide
  | cons r rest ih =>
    intro hinner msgs
    obtain ⟨hrstop, hrcalls⟩ := hinner r (List.mem_cons_self r rest)
    have hrest : ∀ q ∈ rest, (processStream rid q).stopped = false ∧ roundCalls rid q ≠ [] :=
      fun q hq => hinner q (List.mem_cons_of_mem r hq)
    obtain ⟨hrun, _, _, hall⟩ := processStream_inv rid r
    obtain ⟨hrows, _⟩ := hrun hrstop
    have hcalls : ((processStream rid r).acc.finalToolCalls).map Prod.snd = roundCalls rid r := rfl
    simp only [List.cons_append, aiProcessStreamable, hcalls, foldl_toolLoopStep,
      if_neg hrcalls]
    obtain ⟨ihrows, ihevents⟩ := ih hrest
      (msgs ++ toolLoopMsgs callTool (roundCalls rid r))
    constructor
    · simp only [hrows, List.nil_append, List.flatMap_cons, List.append_assoc,
        List.append_eq]
      rw [ihrows]
    · intro e he
      simp only [List.nil_append, List.mem_append] at he
      rcases he with he | he
      · rcases he with he | he
        · obtain ⟨hmt, hrid⟩ := hall e he
          refine ⟨?_, hrid⟩
          rcases hmt with hmt | hmt <;> rw [hmt] <;> decide
        · obtain ⟨hmt, hrid⟩ := toolLoopEvents_mem rid (roundCalls rid r) e he
          refine ⟨?_, hrid⟩
          rcases hmt with hmt | hmt | hmt <;> rw [hmt] <;> decide
      · exact ihevents e he

/-- C3 amended: for every single streamed LLM invocation that terminates
with finish reason `stop`, the stream emits exactly one terminal `answer`
event, and concatenating the contents of that invocation's `answer_delta`
events, in emission order, equals its content.  Across a whole request
this fails when an intermediate tool-call round also emits content deltas
(see the counterexample). -/
theorem streamingReassemblyPerInvocation (rid : String) (chunks : List StreamChunk)
    (h : (processStream rid chunks).stopped = true) :
    eventsAnswerContents (processStream rid chunks).events
        = [(processStream rid chunks).answerFullContent] ∧
      concatAll (eventsDeltaContents (processStream rid chunks).events)
        = (processStream rid chunks).answerFullContent :=
  ⟨((processStream_inv rid chunks).2.1 h).2, (processStream_inv rid chunks).2.2.1⟩

/-- C3 witness: the stream `O`, `K`, stop reassembles to its terminal
answer. -/
theorem streamingReassemblyPerInvocationWitness :
    (processStream "r" reassemblyWitnessChunks).stopped = true ∧
      (eventsAnswerContents (processStream "r" reassemblyWitnessChunks).events
          = [(processStream "r" reassemblyWitnessChunks).answerFullContent] ∧
        concatAll (eventsDeltaContents (processStream "r" reassemblyWitnessChunks).events)
          = (processStream "r" reassemblyWitnessChunks).answerFullContent) :=
  ⟨by decide, streamingReassemblyPerInvocation "r" reassemblyWitnessChunks (by decide)⟩

/-- C3 counterexample: in a streamed request whose first LLM round emits
the content delta `A` together with a tool call and whose final round
answers `B`, the `answer_delta` contents concatenate to `AB` while the
single terminal `answer` event carries only `B`. -/
theorem streamingReassemblyAcrossRoundsFails :
    concatAll (eventsDeltaContents mixedRunOut.events) = "AB" ∧
      eventsAnswerContents mixedRunOut.events = ["B"] ∧ ("AB" : String) ≠ "B" := by
  decide

/-- C2: in the streaming path (the code cited by the claim), when a round
accumulates tool calls `pre ++ tcf :: post` — any one call `tcf`, at any
position among its siblings — and `tcf`'s backend errors, the
orchestrator persists `tcf`'s `function_call` row and a
`function_call_output` row holding the fixed error string `调用工具失败`,
still executes every sibling before and after it and persists each
sibling's row pair with its own result, and still recurses into a further
LLM call on the extended message list. -/
theorem toolFailureIsolation (callTool : ToolCall → Except String String)
    (rid : String) (chunks : List StreamChunk) (rest : List (List StreamChunk))
    (msgs : List ChatMessage) (pre : List ToolCall) (tcf : ToolCall)
    (post : List ToolCall) (e : String)
    (hcalls : roundCalls rid chunks = pre ++ tcf :: post)
    (hf : callTool tcf = .error e) :
    (aiProcessStreamable callTool rid (chunks :: rest) msgs).rows =
        (processStream rid chunks).rows ++
          (pre.flatMap (pairFn callTool rid) ++
            ([functionCallRow rid tcf, functionCallOutputRow rid tcf "调用工具失败"] ++
              post.flatMap (pairFn callTool rid))) ++
          (aiProcessStreamable callTool rid rest (msgs ++
            toolLoopMsgs callTool (pre ++ tcf :: post))).rows ∧
      (aiProcessStreamable callTool rid (chunks :: rest) msgs).llmCalls =
        1 + (aiProcessStreamable callTool rid rest (msgs ++
          toolLoopMsgs callTool (pre ++ tcf :: post))).llmCalls := by
  have hres : toolResultString callTool tcf = "调用工具失败" := by
    simp [toolResultString, hf]
  have hc : ((processStream rid chunks).acc.finalToolCalls).map Prod.snd =
      pre ++ tcf :: post := hcalls
  have hne : (pre ++ tcf :: post : List ToolCall) ≠ [] := by simp
  refine ⟨?_, ?_⟩
  · simp only [aiProcessStreamable, hc, foldl_toolLoopStep, if_neg hne,
      toolLoopEvents, toolPairRows, toolLoopMsgs, List.flatMap_append,
      List.flatMap_cons, hres, List.nil_append, List.append_nil,
      List.append_assoc, List.cons_append]
    rfl
  · simp only [aiProcessStreamable, hc, foldl_toolLoopStep, if_neg hne,
      toolLoopEvents, toolPairRows, toolLoopMsgs, List.flatMap_append,
      List.flatMap_cons, hres, List.nil_append, List.append_nil,
      List.append_assoc, List.cons_append]

/-- C2 witness: two tool calls where the SECOND one fails; the first
sibling's pair is persisted with its own result, the failing call's
output row holds the error string, and the run recurses. -/
theorem toolFailureIsolationWitness :
    (roundCalls "r" failIsoChunks =
        [⟨"a", "function", "f", "\x7b\x7d"⟩] ++ ⟨"b", "function", "g", "\x7b\x7d"⟩ :: [] ∧
      failsSecondCallTool ⟨"b", "function", "g", "\x7b\x7d"⟩ = .error "boom") ∧
    ((aiProcessStreamable failsSecondCallTool "r" (failIsoChunks :: [stopRoundDone]) []).rows =
        (processStream "r" failIsoChunks).rows ++
          ([⟨"a", "function", "f", "\x7b\x7d"⟩].flatMap (pairFn failsSecondCallTool "r") ++
            ([functionCallRow "r" ⟨"b", "function", "g", "\x7b\x7d"⟩,
                functionCallOutputRow "r" ⟨"b", "function", "g", "\x7b\x7d"⟩ "调用工具失败"] ++
              ([] : List ToolCall).flatMap (pairFn failsSecondCallTool "r"))) ++
          (aiProcessStreamable failsSecondCallTool "r" [stopRoundDone] ([] ++
            toolLoopMsgs failsSecondCallTool
              ([⟨"a", "function", "f", "\x7b\x7d"⟩] ++
                ⟨"b", "function", "g", "\x7b\x7d"⟩ :: []))).rows ∧
      (aiProcessStreamable failsSecondCallTool "r" (failIsoChunks :: [stopRoundDone]) []).llmCalls =
        1 + (aiProcessStreamable failsSecondCallTool "r" [stopRoundDone] ([] ++
          toolLoopMsgs failsSecondCallTool
            ([⟨"a", "function", "f", "\x7b\x7d"⟩] ++
              ⟨"b", "function", "g", "\x7b\x7d"⟩ :: []))).llmCalls) :=
  ⟨⟨by decide, rfl⟩,
    toolFailureIsolation failsSecondCallTool "r" failIsoChunks [stopRoundDone] []
      [⟨"a", "function", "f", "\x7b\x7d"⟩] ⟨"b", "function", "g", "\x7b\x7d"⟩ []
      "boom" (by decide) rfl⟩

/-- C1 amended: in the streaming path, for every run whose script is a
sequence of vendor-conformant rounds — each intermediate round ends
requesting tools without a `stop` finish, the final round stops with no
tool calls — the run emits no `error` event, every persisted row carries
the single request id, and the message store receives exactly the user's
`message` row, one `function_call` row paired with one
`function_call_output` row per tool invocation, and exactly one final
assistant `message` row, in that causal order.  In the blocking path the
tool-call rows are not persisted (see the counterexample). -/
theorem userSendMessageStreamTrace (callTool : ToolCall → Except String String)
    (rid systemPrompt userMessage : String) (history : List ChatMessage)
    (blockScript : List AssistantResponse)
    (inner : List (List StreamChunk)) (last : List StreamChunk)
    (hinner : ∀ r ∈ inner, (processStream rid r).stopped = false ∧ roundCalls rid r ≠ [])
    (hlast1 : (processStream rid last).stopped = true)
    (hlast2 : roundCalls rid last = []) :
    (∀ e ∈ (userSendMessage callTool rid (inner ++ [last]) blockScript true
        systemPrompt history userMessage).events, e.messageType ≠ "error") ∧
      (∀ row ∈ (userSendMessage callTool rid (inner ++ [last]) blockScript true
        systemPrompt history userMessage).rows, row.requestID = rid) ∧
      ∃ calls : List ToolCall,
        (userSendMessage callTool rid (inner ++ [last]) blockScript true
            systemPrompt history userMessage).rows =
          userRow rid userMessage ::
            (calls.flatMap (pairFn callTool rid) ++
              [assistantRow rid (processStream rid last).answerFullContent]) := by
  obtain ⟨hshape, hevents⟩ := aiStreamShape callTool rid last hlast1 hlast2 inner hinner
    (⟨"system", systemPrompt, [], ""⟩ :: (history ++ [⟨"user", userMessage, [], ""⟩]))
  have husm_events : (userSendMessage callTool rid (inner ++ [last]) blockScript true
      systemPrompt history userMessage).events =
      (aiProcessStreamable callTool rid (inner ++ [last])
        (⟨"system", systemPrompt, [], ""⟩ ::
          (history ++ [⟨"user", userMessage, [], ""⟩]))).events := by
    simp [userSendMessage]
  have husm_rows : (userSendMessage callTool rid (inner ++ [last]) blockScript true
      systemPrompt history userMessage).rows =
      userRow rid userMessage ::
        (aiProcessStreamable callTool rid (inner ++ [last])
          (⟨"system", systemPrompt, [], ""⟩ ::
            (history ++ [⟨"user", userMessage, [], ""⟩]))).rows := by
    simp [userSendMessage]
  refine ⟨?_, ?_, ?_⟩
  · intro ev hev
    rw [husm_events] at hev
    exact (hevents ev hev).1
  · intro row hrow
    rw [husm_rows, hshape] at hrow
    rcases List.mem_cons.mp hrow with hrow | hrow
    · subst hrow; rfl
    · rcases List.mem_append.mp hrow with hrow | hrow
      · obtain ⟨q, _, hq⟩ := List.mem_flatMap.mp hrow
        exact toolPairRows_requestID callTool rid (roundCalls rid q) row hq
      · simp at hrow; subst hrow; rfl
  · refine ⟨inner.flatMap (roundCalls rid), ?_⟩
    rw [husm_rows, hshape]
    simp only [toolPairRows, List.flatMap_assoc]
    rfl

/-- C1 witness: one tool round followed by a stopping round produces the
trace user row, one `function_call` / `function_call_output` pair, final
assistant row. -/
theorem userSendMessageStreamTraceWitness :
    ((∀ r ∈ [singleToolRound],
          (processStream "r" r).stopped = false ∧ roundCalls "r" r ≠ []) ∧
        (processStream "r" stopRoundDone).stopped = true ∧
        roundCalls "r" stopRoundDone = []) ∧
      ((∀ e ∈ (userSendMessage okCallTool "r" ([singleToolRound] ++ [stopRoundDone]) []
          true "s" [] "hi").events, e.messageType ≠ "error") ∧
        (∀ row ∈ (userSendMessage okCallTool "r" ([singleToolRound] ++ [stopRoundDone]) []
          true "s" [] "hi").rows, row.requestID = "r") ∧
        ∃ calls : List ToolCall,
          (userSendMessage okCallTool "r" ([singleToolRound] ++ [stopRoundDone]) []
              true "s" [] "hi").rows =
            userRow "r" "hi" ::
              (calls.flatMap (pairFn okCallTool "r") ++
                [assistantRow "r" (processStream "r" stopRoundDone).answerFullContent])) :=
  ⟨⟨by decide, by decide, by decide⟩,
    userSendMessageStreamTrace okCallTool "r" "s" "hi" [] [] [singleToolRound]
      stopRoundDone (by decide) (by decide) (by decide)⟩

/-- C1 counterexample: a blocking run with one tool invocation completes
with no `error` event and emits a `tool_call` event, yet the store
receives zero `function_call` and zero `function_call_output` rows — the
blocking tool loop never persists them — so the trace is only the user
row and the assistant row. -/
theorem traceCompletenessFailsBlocking :
    (blockingToolRunOut.events.filter (fun e => e.messageType = "error")) = [] ∧
      (blockingToolRunOut.events.filter (fun e => e.messageType = "tool_call")).length = 1 ∧
      (blockingToolRunOut.rows.filter (fun r2 => r2.mtype = "function_call")).length = 0 ∧
      (blockingToolRunOut.rows.filter (fun r2 => r2.mtype = "function_call_output")).length = 0 ∧
      blockingToolRunOut.rows = [userRow "r" "hi", assistantRow "r" "done"] := by
  decide

/-- C9: deleting or renaming a conversation whose stored
`(chat agent id, service-user id)` owner does not match the caller fails
with the authorization error and leaves both the conversation table and
the message table exactly as they were. -/
theorem ownershipEnforcementNoSideEffects (db : ConvDB)
    (agentID uid convID newTitle : String) (conv : Conversation)
    (hparse : uuidParseOk convID = true)
    (hfind : db.conversations.find? (fun c => c.id = convID) = some conv)
    (hmis : conv.chatAgentID ≠ agentID ∨ conv.serviceUserID ≠ uid) :
    deleteConversation db agentID uid convID =
        (⟨false, some "无权删除此会话", none⟩, db) ∧
      renameConversationTitle db agentID uid convID newTitle =
        (⟨false, some "无权重命名此会话", none⟩, db) := by
  constructor
  · unfold deleteConversation
    rw [hparse]
    simp only [Bool.true_eq_false, if_false, hfind, if_pos hmis]
  · unfold renameConversationTitle
    rw [hparse]
    simp only [Bool.true_eq_false, if_false, hfind, if_pos hmis]

/-- C9 witness: agent `agent2` can neither delete nor rename a
conversation owned by `(agent1, u1)`, and the database is unchanged. -/
theorem ownershipEnforcementNoSideEffectsWitness :
    (uuidParseOk "00000000-0000-0000-0000-000000000001" = true ∧
      ownerDB.conversations.find?
          (fun c => c.id = "00000000-0000-0000-0000-000000000001") =
        some ⟨"00000000-0000-0000-0000-000000000001", "app1", "agent1", "u1", "t"⟩ ∧
      (("agent1" : String) ≠ "agent2" ∨ ("u1" : String) ≠ "u1")) ∧
    (deleteConversation ownerDB "agent2" "u1" "00000000-0000-0000-0000-000000000001" =
        (⟨false, some "无权删除此会话", none⟩, ownerDB) ∧
      renameConversationTitle ownerDB "agent2" "u1"
          "00000000-0000-0000-0000-000000000001" "new" =
        (⟨false, some "无权重命名此会话", none⟩, ownerDB)) :=
  ⟨⟨by decide, by decide, by decide⟩,
    ownershipEnforcementNoSideEffects ownerDB "agent2" "u1"
      "00000000-0000-0000-0000-000000000001" "new"
      ⟨"00000000-0000-0000-0000-000000000001", "app1", "agent1", "u1", "t"⟩
      (by decide) (by decide) (by decide)⟩

lemma take_filter_window {α : Type} (p : α → Bool) :
    ∀ (l : List α) (n : Nat), ∃ k, k ≤ n ∧
      (l.take n).filter p = (l.filter p).take k := by
  intro l
  induction l with
  | nil => intro n; exact ⟨0, Nat.zero_le n, by simp⟩
  | cons a t ih =>
    intro n
    cases n with
    | zero => exact ⟨0, Nat.le_refl 0, by simp⟩
    | succ m =>
      obtain ⟨k, hk, heq⟩ := ih m
      by_cases hp : p a
      · exact ⟨k + 1, Nat.succ_le_succ hk, by simp [hp, heq]⟩
      · exact ⟨k, Nat.le_succ_of_le hk, by simp [hp, heq]⟩

/-- C10: for a store in creation order, the history segment of the prompt
built for an existing conversation sits between the system prompt and the
current user message and consists of the `k` most recently created rows of
type `message` with a non-empty role for some `k ≤ 100`, in descending
creation-time order (newest first). -/
theorem historyWindowContent (store : List StoredMsg) (agentID convID sys user : String)
    (hsorted : List.Pairwise (fun a b => a.createdAt ≤ b.createdAt) store) :
    ∃ k, k ≤ 100 ∧
      buildLlmMessages store agentID convID sys user =
        ⟨"system", sys, [], ""⟩ ::
          (((conversationMessageRowsDesc store agentID convID).take k).map
              (fun m => ⟨m.role, m.content, [], ""⟩) ++
            [⟨"user", user, [], ""⟩]) ∧
      List.Pairwise (fun a b => b.createdAt ≤ a.createdAt)
        ((conversationMessageRowsDesc store agentID convID).take k) := by
  obtain ⟨k, hk, heq⟩ := take_filter_window
    (fun m => decide (isPlainRoleMessage m))
    ((store.filter (fun m => m.chatAgentID = agentID ∧ m.conversationID = convID ∧
      m.deleted = false)).reverse) 100
  refine ⟨k, hk, ?_, ?_⟩
  · unfold buildLlmMessages historyMessagesOf getChatMessageListQuery
      conversationMessageRowsDesc
    rw [heq]
    simp
  · have hsub : List.Sublist ((conversationMessageRowsDesc store agentID convID).take k)
        ((store.filter (fun m => m.chatAgentID = agentID ∧ m.conversationID = convID ∧
          m.deleted = false)).reverse) := by
      refine List.Sublist.trans (List.take_sublist k _) ?_
      unfold conversationMessageRowsDesc
      exact List.filter_sublist _
    refine List.Pairwise.sublist hsub ?_
    rw [List.pairwise_reverse]
    exact List.Pairwise.sublist (List.filter_sublist _) hsorted

/-- C10 witness: a two-message conversation log yields the system prompt,
the two history rows newest first, then the user message. -/
theorem historyWindowContentWitness :
    List.Pairwise (fun a b => a.createdAt ≤ b.createdAt) twoMsgStore ∧
      ∃ k, k ≤ 100 ∧
        buildLlmMessages twoMsgStore "g1" "c1" "s" "u" =
          ⟨"system", "s", [], ""⟩ ::
            (((conversationMessageRowsDesc twoMsgStore "g1" "c1").take k).map
                (fun m => ⟨m.role, m.content, [], ""⟩) ++
              [⟨"user", "u", [], ""⟩]) ∧
        List.Pairwise (fun a b => b.createdAt ≤ a.createdAt)
          ((conversationMessageRowsDesc twoMsgStore "g1" "c1").take k) :=
  ⟨by decide, historyWindowContent twoMsgStore "g1" "c1" "s" "u" (by decide)⟩

end LemonTree
